import Mathlib

/-!
Verification of the qBittorrent auto-cleanup service (`main.py`) against its
design specification.

The embedding follows the source closely:

* `Torrent` mirrors the dictionary fields the code reads from the directory
  client (`name`, `hash`, `tags`, `ratio`, `seeding_time`); the spec calls
  the `tags` field "category".  Numeric fields are embedded as rationals.
* `QBConfig` mirrors the `qb_config` dictionary built by `load_config`.
* External calls (client construction, login, listing, deletion) are
  modelled by environment oracles describing their outcome; every
  `try`/`except` of the source becomes a case split on the oracle.
* Log emission is modelled explicitly where a claim depends on it: the
  process-wide logger state is a `QBState` field, error-level log entries
  of a pass are collected in `PassResult.errors`, and the network calls a
  pass issues are collected in a `DirCall` trace.
-/

/-- A torrent record as read by the code: `torrent.get('tags','')`,
`torrent['ratio']`, `torrent['seeding_time']` (seconds), plus `name` and
`hash` used for logging and deletion. -/
structure Torrent where
  name : String
  hash : String
  tags : String
  ratio : ℚ
  seeding_time : ℚ
deriving DecidableEq

/-- The `qb_config` dictionary produced by `load_config` and consumed by
`QBittorrentAutoMate.__init__` / `connect_qbittorrent`.  `url`, `username`
and `password` are optional because `connect_qbittorrent` checks them for
absence with `.get(...) is None`. -/
structure QBConfig where
  url : Option String
  port : String
  username : Option String
  password : Option String
  ratio_limit : ℚ
  seeding_time_limit : ℚ
  delete_files : Bool
  exclude_tags : List String
  include_tags : List String
deriving DecidableEq

/-- Mutable state of the `QBittorrentAutoMate` object and the process-wide
logger: whether `self.qb` is set, and the log lines emitted so far. -/
structure QBState where
  qb : Bool
  log : List String
deriving DecidableEq

/-- Log line of `should_delete_torrent` (line 111 of the source). -/
def deleteConditionMsg (t : Torrent) : String :=
  "种子满足删除条件: " ++ t.name

/-- The deletion verdict of `QBittorrentAutoMate.should_delete_torrent`
(lines 94-114): exclusion gate, then inclusion gate, then the
ratio-or-seeding-time threshold test. -/
def should_delete_torrent (cfg : QBConfig) (t : Torrent) : Bool :=
  if t.tags ∈ cfg.exclude_tags then false
  else if cfg.include_tags ≠ [] ∧ t.tags ∉ cfg.include_tags then false
  else if t.ratio ≥ cfg.ratio_limit ∨ t.seeding_time / 60 ≥ cfg.seeding_time_limit then true
  else false

/-- `should_delete_torrent` with its effect on the process state: the method
emits one info log line (line 111) exactly when the threshold test fires.
Its verdict is `should_delete_torrent` (proved below). -/
def should_delete_torrent_run (cfg : QBConfig) (t : Torrent) (s : QBState) :
    Bool × QBState :=
  if t.tags ∈ cfg.exclude_tags then (false, s)
  else if cfg.include_tags ≠ [] ∧ t.tags ∉ cfg.include_tags then (false, s)
  else if t.ratio ≥ cfg.ratio_limit ∨ t.seeding_time / 60 ≥ cfg.seeding_time_limit then
    (true, { s with log := s.log ++ [deleteConditionMsg t] })
  else (false, s)

/-- Sample policy: no category lists, ratio limit 2, seeding limit 120 min
(the defaults of `load_config`). -/
def cfgDefault : QBConfig :=
  { url := some "http://localhost", port := "8080",
    username := some "admin", password := some "adminadmin",
    ratio_limit := 2, seeding_time_limit := 120, delete_files := false,
    exclude_tags := [], include_tags := [] }

/-- Sample record: ratio 5/2, one hour of seeding, untagged. -/
def torrentHighRatio : Torrent :=
  { name := "a", hash := "h1", tags := "", ratio := 5/2, seeding_time := 3600 }

/-- Helper: with the exclusion gate passed and the inclusion gate open, the
verdict is the decided threshold disjunction. -/
lemma should_delete_of_gates_open (cfg : QBConfig) (t : Torrent)
    (hexc : t.tags ∉ cfg.exclude_tags)
    (hinc : cfg.include_tags = [] ∨ t.tags ∈ cfg.include_tags) :
    should_delete_torrent cfg t =
      decide (t.ratio ≥ cfg.ratio_limit ∨ t.seeding_time / 60 ≥ cfg.seeding_time_limit) := by
  unfold should_delete_torrent
  rw [if_neg hexc]
  have h2 : ¬ (cfg.include_tags ≠ [] ∧ t.tags ∉ cfg.include_tags) := by
    rcases hinc with h | h
    · exact fun hc => hc.1 h
    · exact fun hc => hc.2 h
  rw [if_neg h2]
  by_cases h3 : t.ratio ≥ cfg.ratio_limit ∨ t.seeding_time / 60 ≥ cfg.seeding_time_limit
  · rw [if_pos h3, decide_eq_true h3]
  · rw [if_neg h3]
    symm
    exact decide_eq_false h3

/-- Helper: an excluded tag forces a false verdict. -/
lemma should_delete_of_mem_exclude (cfg : QBConfig) (t : Torrent)
    (h : t.tags ∈ cfg.exclude_tags) :
    should_delete_torrent cfg t = false := by
  unfold should_delete_torrent
  rw [if_pos h]

/-- Helper: a non-empty include list rejects every tag outside it. -/
lemma should_delete_of_not_included (cfg : QBConfig) (t : Torrent)
    (hne : cfg.include_tags ≠ []) (hnotin : t.tags ∉ cfg.include_tags) :
    should_delete_torrent cfg t = false := by
  unfold should_delete_torrent
  by_cases hexc : t.tags ∈ cfg.exclude_tags
  · rw [if_pos hexc]
  · rw [if_neg hexc, if_pos ⟨hne, hnotin⟩]

/-- C1: for a record that passes both category gates, the verdict is exactly
the disjunction of the two threshold tests — ratio at or above the limit, or
seeding minutes (`seeding_time / 60`) at or above the limit; either alone
suffices. -/
theorem should_delete_iff_thresholds (cfg : QBConfig) (t : Torrent)
    (hexc : t.tags ∉ cfg.exclude_tags)
    (hinc : cfg.include_tags = [] ∨ t.tags ∈ cfg.include_tags) :
    should_delete_torrent cfg t =
      decide (t.ratio ≥ cfg.ratio_limit ∨ t.seeding_time / 60 ≥ cfg.seeding_time_limit) :=
  should_delete_of_gates_open cfg t hexc hinc

/-- Witness for C1 at the default policy and a high-ratio record. -/
theorem should_delete_iff_thresholds_witness :
    torrentHighRatio.tags ∉ cfgDefault.exclude_tags ∧
    should_delete_torrent cfgDefault torrentHighRatio =
      decide (torrentHighRatio.ratio ≥ cfgDefault.ratio_limit ∨
        torrentHighRatio.seeding_time / 60 ≥ cfgDefault.seeding_time_limit) :=
  ⟨by decide, should_delete_iff_thresholds cfgDefault torrentHighRatio (by decide) (Or.inl rfl)⟩

/-- C3: a record whose tag is in the exclude list is never deleted, whatever
its ratio and seeding time; the exclusion gate is the first check. -/
theorem exclude_tag_forces_false (cfg : QBConfig) (t : Torrent)
    (h : t.tags ∈ cfg.exclude_tags) :
    should_delete_torrent cfg t = false :=
  should_delete_of_mem_exclude cfg t h

/-- Sample policy excluding "movies". -/
def cfgExcludeMovies : QBConfig :=
  { cfgDefault with exclude_tags := ["movies"] }

/-- Sample record: excluded category, ratio 10 far above the limit. -/
def torrentMovies : Torrent :=
  { name := "m", hash := "h2", tags := "movies", ratio := 10, seeding_time := 0 }

/-- Witness for C3: category "movies" excluded, ratio 10, still kept. -/
theorem exclude_tag_forces_false_witness :
    torrentMovies.tags ∈ cfgExcludeMovies.exclude_tags ∧
    should_delete_torrent cfgExcludeMovies torrentMovies = false :=
  ⟨by decide, exclude_tag_forces_false cfgExcludeMovies torrentMovies (by decide)⟩

/-- C4: with a non-empty include list, a record whose tag is outside the list
is never deleted; with an empty include list the gate imposes nothing — the
verdict reduces to the exclusion gate plus the threshold test. -/
theorem include_gate_filters (cfg : QBConfig) (t : Torrent) :
    (cfg.include_tags ≠ [] → t.tags ∉ cfg.include_tags →
      should_delete_torrent cfg t = false) ∧
    (cfg.include_tags = [] →
      should_delete_torrent cfg t =
        if t.tags ∈ cfg.exclude_tags then false
        else decide (t.ratio ≥ cfg.ratio_limit ∨ t.seeding_time / 60 ≥ cfg.seeding_time_limit)) := by
  constructor
  · exact should_delete_of_not_included cfg t
  · intro hemp
    by_cases hexc : t.tags ∈ cfg.exclude_tags
    · rw [if_pos hexc]
      exact should_delete_of_mem_exclude cfg t hexc
    · rw [if_neg hexc]
      exact should_delete_of_gates_open cfg t hexc (Or.inl hemp)

/-- Sample policy including only "books". -/
def cfgIncludeBooks : QBConfig :=
  { cfgDefault with include_tags := ["books"] }

/-- Witness for C4: include list `["books"]`, untagged high-ratio record is
kept. -/
theorem include_gate_filters_witness :
    cfgIncludeBooks.include_tags ≠ [] ∧
    torrentHighRatio.tags ∉ cfgIncludeBooks.include_tags ∧
    should_delete_torrent cfgIncludeBooks torrentHighRatio = false :=
  ⟨by decide, by decide,
    (include_gate_filters cfgIncludeBooks torrentHighRatio).1 (by decide) (by decide)⟩

/-- Outcome of the `auth_log_in()` call inside `connect_qbittorrent`:
success, a `LoginFailed` exception (caught by the inner handler), or any
other exception (caught only by the outer handler). -/
inductive AuthOutcome
  | ok
  | loginFailed
  | otherError
deriving DecidableEq

/-- Environment oracle for one `connect_qbittorrent` invocation:
whether `Client(...)` construction succeeds, the login outcome, and whether
the `app_version()` query after a successful login succeeds. -/
structure ConnEnv where
  clientOk : Bool
  auth : AuthOutcome
  appVersionOk : Bool
deriving DecidableEq

/-- Error line for missing connection configuration (line 72). -/
def missingConfigMsg : String :=
  "连接 qBittorrent 失败: 请检查地址,用户名,密码是否已填写"

/-- Error line of the outer exception handler (line 91). -/
def connectErrorMsg : String := "连接 qBittorrent 失败"

/-- Info line after a successful login (line 85). -/
def connectedMsg : String := "成功连接到 qBittorrent"

/-- `QBittorrentAutoMate.connect_qbittorrent` (lines 67-92).  Returns the
boolean the property returns together with the updated object/logger state.
Mirrors the source exactly: missing `url`/`username`/`password` → log and
`False` with `self.qb` untouched; `Client(...)` raising → outer handler,
`False`, `self.qb` untouched; `LoginFailed` from `auth_log_in()` → inner
handler logs it and the method still returns `True` with `self.qb` set; any
other exception from `auth_log_in()` or from the `app_version()` logging
call → outer handler, `False`, but `self.qb` already assigned. -/
def connect_qbittorrent (cfg : QBConfig) (env : ConnEnv) (s : QBState) :
    Bool × QBState :=
  if cfg.url = none ∨ cfg.username = none ∨ cfg.password = none then
    (false, { s with log := s.log ++ [missingConfigMsg] })
  else if env.clientOk = false then
    (false, { s with log := s.log ++ [connectErrorMsg] })
  else
    match env.auth with
    | AuthOutcome.loginFailed =>
        (true, { qb := true, log := s.log ++ [connectErrorMsg] })
    | AuthOutcome.otherError =>
        (false, { qb := true, log := s.log ++ [connectErrorMsg] })
    | AuthOutcome.ok =>
        if env.appVersionOk then
          (true, { qb := true, log := s.log ++ [connectedMsg] })
        else
          (false, { qb := true, log := s.log ++ [connectErrorMsg] })

/-- A network call a cleanup pass issues to the directory client: the one
listing request, or one deletion request carrying the torrent hash and the
uniform `delete_files` flag. -/
inductive DirCall
  | listCall
  | deleteCall (hash : String) (purge : Bool)
deriving DecidableEq

/-- Environment oracle for one cleanup pass: connection oracle, outcome of
`torrents_info(status_filter='completed')` (a listing or an exception
message), and per-position success of `torrents_delete`. -/
structure PassEnv where
  conn : ConnEnv
  listing : Except String (List Torrent)
  deleteOk : ℕ → Bool

/-- Error line of `get_completed_torrents` (line 122). -/
def listingErrMsg (e : String) : String := "获取种子列表失败: " ++ e

/-- Error line of `delete_torrent` (line 136). -/
def deleteErrMsg (t : Torrent) : String := "删除种子失败 " ++ t.name

/-- `QBittorrentAutoMate.get_completed_torrents` (lines 116-123): the
listing, or — when the call raises — an error log entry and the empty
list. -/
def get_completed_torrents (listing : Except String (List Torrent)) :
    List Torrent × List String :=
  match listing with
  | Except.ok ts => (ts, [])
  | Except.error e => ([], [listingErrMsg e])

/-- `QBittorrentAutoMate.delete_torrent` (lines 125-137): `True` on success;
on an exception, one error log entry and `False`.  The failure never
propagates. -/
def delete_torrent (ok : Bool) (t : Torrent) : Bool × List String :=
  if ok then (true, []) else (false, [deleteErrMsg t])

/-- The per-record loop of `cleanup_torrents` (lines 151-156), with `i` the
position of the head of the remaining list in the full listing.  Returns
the `deleted_count`, the error-level log entries, and the deletion calls
issued. -/
def deleteLoopAux (cfg : QBConfig) (ok : ℕ → Bool) :
    ℕ → List Torrent → ℕ × List String × List DirCall
  | _, [] => (0, [], [])
  | i, t :: rest =>
    let r := deleteLoopAux cfg ok (i + 1) rest
    if should_delete_torrent cfg t then
      let d := delete_torrent (ok i) t
      (if d.1 then r.1 + 1 else r.1, d.2 ++ r.2.1,
        DirCall.deleteCall t.hash cfg.delete_files :: r.2.2)
    else r

/-- The pass summary the design calls `PassResult`: records considered,
records deleted, and the error-level log entries of the pass (the errors
channel of §7 of the design). -/
structure PassResult where
  considered : ℕ
  deleted : ℕ
  errors : List String
deriving DecidableEq

/-- The body of `cleanup_torrents` after the connection guard (lines
145-160): issue the listing call, run the per-record loop, tally. -/
def run_listing_phase (cfg : QBConfig) (env : PassEnv) (s : QBState) :
    QBState × Option PassResult × List DirCall :=
  let l := get_completed_torrents env.listing
  let r := deleteLoopAux cfg env.deleteOk 0 l.1
  (s, some { considered := l.1.length, deleted := r.1, errors := l.2 ++ r.2.1 },
    DirCall.listCall :: r.2.2)

/-- `QBittorrentAutoMate.cleanup_torrents` (lines 139-160): if `self.qb` is
unset and connecting fails, return at once (`none`, no calls issued);
otherwise list, filter, delete, tally.  Total for every environment: every
exception of the body is caught inside the modelled callees. -/
def cleanup_torrents (cfg : QBConfig) (env : PassEnv) (s : QBState) :
    QBState × Option PassResult × List DirCall :=
  if s.qb then run_listing_phase cfg env s
  else
    let c := connect_qbittorrent cfg env.conn s
    if c.1 then run_listing_phase cfg env c.2
    else (c.2, none, [])

/-- Scheduler-loop states of the design's state machine (Running is
transient inside one `loopStep`). -/
inductive LoopState
  | Waiting
  | Stopped
deriving DecidableEq

/-- One scheduled fire: whether a stop signal arrived first, and the
environment of the pass that runs otherwise. -/
structure FireEnv where
  stop : Bool
  passEnv : PassEnv

/-- Modelled from the spec: the fixed-interval trigger semantics of the
external blocking scheduler used by `main` (lines 204-222) — fire `n`
happens `intervalMinutes * n` minutes after startup, fire 0 being the
immediate first pass `main` runs itself (line 217). -/
def fireTime (intervalMinutes n : ℕ) : ℕ := intervalMinutes * n

/-- Modelled from the spec: one iteration of the external blocking
scheduler driving `cleanup_torrents` as its job (lines 204-228): an
arrived stop signal moves Waiting to Stopped; otherwise the pass runs —
whatever its outcome — and the loop returns to Waiting.  Stopped is
terminal. -/
def loopStep (cfg : QBConfig) (f : FireEnv) :
    LoopState × QBState → LoopState × QBState
  | (LoopState.Stopped, s) => (LoopState.Stopped, s)
  | (LoopState.Waiting, s) =>
    if f.stop then (LoopState.Stopped, s)
    else (LoopState.Waiting, (cleanup_torrents cfg f.passEnv s).1)

/-- The `main` loop (lines 186-228): the first pass runs immediately at
startup, then each later fire is a `loopStep`. -/
def mainRun (cfg : QBConfig) (fires : ℕ → FireEnv) (s0 : QBState) :
    ℕ → LoopState × QBState
  | 0 => (LoopState.Waiting, (cleanup_torrents cfg (fires 0).passEnv s0).1)
  | n + 1 => loopStep cfg (fires (n + 1)) (mainRun cfg fires s0 n)

/-- When every record qualifies and every deletion in range succeeds, the
loop deletes everything, collects no errors, and issues one deletion call
per record. -/
lemma deleteLoopAux_all_ok (cfg : QBConfig) (ok : ℕ → Bool) :
    ∀ (l : List Torrent) (i : ℕ),
      (∀ t ∈ l, should_delete_torrent cfg t = true) →
      (∀ j, i ≤ j → ok j = true) →
      deleteLoopAux cfg ok i l =
        (l.length, [], l.map fun t => DirCall.deleteCall t.hash cfg.delete_files) := by
  intro l
  induction l with
  | nil => intro i _ _; simp [deleteLoopAux]
  | cons t rest ih =>
    intro i hq hok
    have hqt : should_delete_torrent cfg t = true := hq t (List.mem_cons_self t rest)
    have hoki : ok i = true := hok i le_rfl
    have hrest := ih (i + 1) (fun x hx => hq x (List.mem_cons_of_mem t hx))
      (fun j hj => hok j (by omega))
    simp [deleteLoopAux, hqt, delete_torrent, hoki, hrest]

/-- The loop over `l1 ++ tk :: l2`, every record qualifying and the deletion
oracle failing exactly at the position of `tk`: every record still gets its
deletion call, exactly one error entry (for `tk`) is collected, and the
deleted count misses only `tk`. -/
lemma deleteLoopAux_one_fail (cfg : QBConfig) (ok : ℕ → Bool) (tk : Torrent)
    (l2 : List Torrent)
    (hqk : should_delete_torrent cfg tk = true)
    (hq2 : ∀ t ∈ l2, should_delete_torrent cfg t = true) :
    ∀ (l1 : List Torrent) (i : ℕ),
      (∀ t ∈ l1, should_delete_torrent cfg t = true) →
      (∀ j, ok j = decide (j ≠ i + l1.length)) →
      deleteLoopAux cfg ok i (l1 ++ tk :: l2) =
        (l1.length + l2.length, [deleteErrMsg tk],
          (l1 ++ tk :: l2).map fun t => DirCall.deleteCall t.hash cfg.delete_files) := by
  intro l1
  induction l1 with
  | nil =>
    intro i _ hok
    have hoki : ok i = false := by
      rw [hok i]
      simp
    have hrest := deleteLoopAux_all_ok cfg ok l2 (i + 1) hq2
      (fun j hj => by
        rw [hok j]
        simp only [List.length_nil, Nat.add_zero, decide_eq_true_eq]
        omega)
    simp [deleteLoopAux, hqk, delete_torrent, hoki, hrest]
  | cons t l1x ih =>
    intro i hq1 hok
    have hqt : should_delete_torrent cfg t = true := hq1 t (List.mem_cons_self t l1x)
    have hoki : ok i = true := by
      rw [hok i]
      simp only [List.length_cons, decide_eq_true_eq]
      omega
    have hlen : i + (t :: l1x).length = (i + 1) + l1x.length := by
      simp only [List.length_cons]
      omega
    have hrest := ih (i + 1) (fun x hx => hq1 x (List.mem_cons_of_mem t hx))
      (fun j => by rw [hok j, hlen])
    simp only [List.cons_append, deleteLoopAux, hqt, if_true, hoki, delete_torrent]
    simp only [List.append_eq]
    rw [hrest]
    simp only [if_true, List.nil_append, List.length_cons, List.map_cons, List.cons_append,
      Prod.mk.injEq, and_true, true_and]
    omega

/-- C2: a pass over candidates `l1 ++ tk :: l2` — all qualifying — where
only the deletion of `tk` fails: every record is still evaluated and gets a
deletion attempt, the errors of the pass are exactly one entry for `tk`,
and the deleted count is N-1. -/
theorem single_delete_failure_isolated (cfg : QBConfig) (env : PassEnv) (s : QBState)
    (l1 l2 : List Torrent) (tk : Torrent)
    (hqb : s.qb = true)
    (hlist : env.listing = Except.ok (l1 ++ tk :: l2))
    (hq : ∀ t ∈ l1 ++ tk :: l2, should_delete_torrent cfg t = true)
    (hok : ∀ j, env.deleteOk j = decide (j ≠ l1.length)) :
    (cleanup_torrents cfg env s).2.1 =
      some { considered := (l1 ++ tk :: l2).length,
             deleted := (l1 ++ tk :: l2).length - 1,
             errors := [deleteErrMsg tk] } ∧
    (cleanup_torrents cfg env s).2.2 =
      DirCall.listCall ::
        (l1 ++ tk :: l2).map fun t => DirCall.deleteCall t.hash cfg.delete_files := by
  have hq1 : ∀ t ∈ l1, should_delete_torrent cfg t = true :=
    fun t ht => hq t (List.mem_append_left _ ht)
  have hqk : should_delete_torrent cfg tk = true :=
    hq tk (List.mem_append_right _ (List.mem_cons_self tk l2))
  have hq2 : ∀ t ∈ l2, should_delete_torrent cfg t = true :=
    fun t ht => hq t (List.mem_append_right _ (List.mem_cons_of_mem tk ht))
  have hok0 : ∀ j, env.deleteOk j = decide (j ≠ 0 + l1.length) := by
    intro j
    rw [hok j, Nat.zero_add]
  have hloop := deleteLoopAux_one_fail cfg env.deleteOk tk l2 hqk hq2 l1 0 hq1 hok0
  have h1 : cleanup_torrents cfg env s = run_listing_phase cfg env s := by
    simp [cleanup_torrents, hqb]
  rw [h1]
  constructor
  · simp only [run_listing_phase, get_completed_torrents, hlist, hloop]
    simp only [List.nil_append, Option.some.injEq, PassResult.mk.injEq, true_and, and_true]
    simp only [List.length_append, List.length_cons]
    omega
  · simp only [run_listing_phase, get_completed_torrents, hlist, hloop]

/-- Sample policy with zero thresholds: every record qualifies. -/
def cfgZero : QBConfig :=
  { cfgDefault with ratio_limit := 0, seeding_time_limit := 0 }

/-- Sample records for the partial-failure scenario. -/
def tA : Torrent := { name := "A", hash := "hA", tags := "", ratio := 1, seeding_time := 0 }

/-- Second sample record (its deletion is the one that fails). -/
def tB : Torrent := { name := "B", hash := "hB", tags := "", ratio := 1, seeding_time := 0 }

/-- Third sample record. -/
def tC : Torrent := { name := "C", hash := "hC", tags := "", ratio := 1, seeding_time := 0 }

/-- Connection oracle where everything succeeds. -/
def connEnvOk : ConnEnv :=
  { clientOk := true, auth := AuthOutcome.ok, appVersionOk := true }

/-- Pass environment: listing `[tA, tB, tC]`, deletion failing exactly at
position 1 (`tB`). -/
def envFailB : PassEnv :=
  { conn := connEnvOk, listing := Except.ok [tA, tB, tC],
    deleteOk := fun j => decide (j ≠ 1) }

/-- Witness for C2: three candidates, deletion of `tB` fails, the pass
reports 3 considered, 2 deleted, and exactly the one error for `tB`. -/
theorem single_delete_failure_isolated_witness :
    (∀ t ∈ [tA, tB, tC], should_delete_torrent cfgZero t = true) ∧
    (cleanup_torrents cfgZero envFailB { qb := true, log := [] }).2.1 =
      some { considered := 3, deleted := 2, errors := [deleteErrMsg tB] } := by
  refine ⟨by decide, ?_⟩
  exact (single_delete_failure_isolated cfgZero envFailB { qb := true, log := [] }
    [tA] [tC] tB rfl rfl (by decide) (fun j => rfl)).1

/-- C5: when the listing call raises, the pass yields the empty result —
0 considered, 0 deleted — with exactly the listing-level error entry, and
the loop's next transition from this pass is back to Waiting, not Stopped. -/
theorem listing_failure_empty_result (cfg : QBConfig) (env : PassEnv) (s : QBState)
    (e : String) (f : FireEnv)
    (hqb : s.qb = true) (hlist : env.listing = Except.error e)
    (hstop : f.stop = false) :
    (cleanup_torrents cfg env s).2.1 =
      some { considered := 0, deleted := 0, errors := [listingErrMsg e] } ∧
    (loopStep cfg f
      (LoopState.Waiting, (cleanup_torrents cfg env s).1)).1 = LoopState.Waiting := by
  have h1 : cleanup_torrents cfg env s = run_listing_phase cfg env s := by
    simp [cleanup_torrents, hqb]
  constructor
  · rw [h1]
    simp [run_listing_phase, get_completed_torrents, hlist, deleteLoopAux]
  · simp [loopStep, hstop]

/-- Pass environment whose listing call raises a network error. -/
def envListFail : PassEnv :=
  { conn := connEnvOk, listing := Except.error "network error",
    deleteOk := fun _ => true }

/-- A fire with no stop signal and a failing listing. -/
def fireListFail : FireEnv := { stop := false, passEnv := envListFail }

/-- Witness for C5: failing listing call, connected state. -/
theorem listing_failure_empty_result_witness :
    ({ qb := true, log := [] } : QBState).qb = true ∧
    (cleanup_torrents cfgDefault envListFail { qb := true, log := [] }).2.1 =
      some { considered := 0, deleted := 0,
             errors := [listingErrMsg "network error"] } :=
  ⟨rfl, (listing_failure_empty_result cfgDefault envListFail { qb := true, log := [] }
    "network error" fireListFail rfl rfl rfl).1⟩

/-- C6: a pass starting with no live connection whose connection attempt
fails returns at once with no result and an empty call trace: no listing
request and no deletion is issued. -/
theorem connect_failure_aborts_pass (cfg : QBConfig) (env : PassEnv) (s : QBState)
    (hqb : s.qb = false)
    (hc : (connect_qbittorrent cfg env.conn s).1 = false) :
    cleanup_torrents cfg env s = ((connect_qbittorrent cfg env.conn s).2, none, []) := by
  simp [cleanup_torrents, hqb, hc]

/-- Sample configuration with the password entry absent. -/
def cfgNoPass : QBConfig := { cfgDefault with password := none }

/-- Pass environment for the connection-failure witness. -/
def envW6 : PassEnv :=
  { conn := connEnvOk, listing := Except.ok [tA], deleteOk := fun _ => true }

/-- Witness for C6: missing password, connect fails, the pass issues no
call. -/
theorem connect_failure_aborts_pass_witness :
    ({ qb := false, log := [] } : QBState).qb = false ∧
    (connect_qbittorrent cfgNoPass envW6.conn { qb := false, log := [] }).1 = false ∧
    cleanup_torrents cfgNoPass envW6 { qb := false, log := [] } =
      ((connect_qbittorrent cfgNoPass envW6.conn { qb := false, log := [] }).2,
        none, []) :=
  ⟨rfl, by decide,
    connect_failure_aborts_pass cfgNoPass envW6 { qb := false, log := [] } rfl (by decide)⟩

/-- C7: the first pass fires immediately at startup (fire 0 at time 0),
later fires are separated by exactly the configured interval, and the loop
leaves Waiting for Stopped only on a stop signal — no pass outcome ever
does, and a stop signal always does. -/
theorem scheduler_immediate_then_interval (cfg : QBConfig) (fires : ℕ → FireEnv)
    (s0 : QBState) (interval : ℕ) :
    fireTime interval 0 = 0 ∧
    (∀ n, fireTime interval (n + 1) = fireTime interval n + interval) ∧
    mainRun cfg fires s0 0 =
      (LoopState.Waiting, (cleanup_torrents cfg (fires 0).passEnv s0).1) ∧
    (∀ n, (∀ m, m ≤ n → (fires m).stop = false) →
      (mainRun cfg fires s0 n).1 = LoopState.Waiting) ∧
    (∀ n, (mainRun cfg fires s0 n).1 = LoopState.Waiting →
      (fires (n + 1)).stop = true →
      (mainRun cfg fires s0 (n + 1)).1 = LoopState.Stopped) := by
  refine ⟨Nat.mul_zero interval, fun n => Nat.mul_succ interval n, rfl, ?_, ?_⟩
  · intro n
    induction n with
    | zero => intro _; rfl
    | succ m ih =>
      intro h
      have hs : (fires (m + 1)).stop = false := h (m + 1) le_rfl
      have hw : (mainRun cfg fires s0 m).1 = LoopState.Waiting :=
        ih (fun k hk => h k (by omega))
      rcases hp : mainRun cfg fires s0 m with ⟨ls, s⟩
      rw [hp] at hw
      simp only at hw
      subst hw
      show (loopStep cfg (fires (m + 1)) (mainRun cfg fires s0 m)).1 = _
      rw [hp]
      simp [loopStep, hs]
  · intro n hw hs
    rcases hp : mainRun cfg fires s0 n with ⟨ls, s⟩
    rw [hp] at hw
    simp only at hw
    subst hw
    show (loopStep cfg (fires (n + 1)) (mainRun cfg fires s0 n)).1 = _
    rw [hp]
    simp [loopStep, hs]

/-- A fire schedule with no stop signal; every pass sees a healthy
environment. -/
def firesNoStop : ℕ → FireEnv :=
  fun _ => { stop := false, passEnv := envW6 }

/-- Witness for C7: after the immediate pass and two interval fires with no
stop signal, the loop is still Waiting. -/
theorem scheduler_immediate_then_interval_witness :
    (∀ m, m ≤ 2 → (firesNoStop m).stop = false) ∧
    (mainRun cfgDefault firesNoStop { qb := true, log := [] } 2).1 =
      LoopState.Waiting :=
  ⟨fun _ _ => rfl,
    (scheduler_immediate_then_interval cfgDefault firesNoStop
      { qb := true, log := [] } 60).2.2.2.1 2 (fun _ _ => rfl)⟩

/-- C8 counterexample: `should_delete_torrent` is not free of side effects —
on a qualifying record the method mutates the process state by emitting a
log line (line 111), so the state after the call differs from the state
before. -/
theorem should_delete_not_effect_free :
    (should_delete_torrent_run cfgZero tA
      { qb := true, log := [] }).2 ≠ ({ qb := true, log := [] } : QBState) := by
  decide

/-- C8 (amended): the verdict of `should_delete_torrent` is deterministic
and depends only on the record and the policy — the same on any two prior
states — and the method's only effect is appending one info log line when
the verdict is true; it touches nothing else. -/
theorem should_delete_run_characterization (cfg : QBConfig) (t : Torrent)
    (s : QBState) :
    (should_delete_torrent_run cfg t s).1 = should_delete_torrent cfg t ∧
    (should_delete_torrent_run cfg t s).2.qb = s.qb ∧
    (should_delete_torrent_run cfg t s).2.log =
      s.log ++ (if should_delete_torrent cfg t then [deleteConditionMsg t] else []) := by
  unfold should_delete_torrent_run should_delete_torrent
  by_cases h1 : t.tags ∈ cfg.exclude_tags
  · simp [h1]
  · simp only [if_neg h1]
    by_cases h2 : cfg.include_tags ≠ [] ∧ t.tags ∉ cfg.include_tags
    · simp [h2]
    · simp only [if_neg h2]
      by_cases h3 : t.ratio ≥ cfg.ratio_limit ∨ t.seeding_time / 60 ≥ cfg.seeding_time_limit
      · simp [h3]
      · simp [h3]

/-- Connection oracle where construction succeeds but `auth_log_in` raises
something other than `LoginFailed` (say, a network error). -/
def connEnvAuthError : ConnEnv :=
  { clientOk := true, auth := AuthOutcome.otherError, appVersionOk := true }

/-- C9 counterexample: `connect_qbittorrent` reports failure in a case the
claim does not allow — the url, username and password are all present and
the client constructs fine, yet the connection attempt returns false
(because the login call raised a non-login-failure error). -/
theorem connect_false_despite_config_and_construction :
    (connect_qbittorrent cfgDefault connEnvAuthError
      { qb := false, log := [] }).1 = false ∧
    cfgDefault.url ≠ none ∧ cfgDefault.username ≠ none ∧
    cfgDefault.password ≠ none ∧ connEnvAuthError.clientOk = true := by
  refine ⟨rfl, ?_, ?_, ?_, rfl⟩ <;> simp [cfgDefault]

/-- C9 (amended): the connection attempt reports success exactly when the
url, username and password entries are present, the client constructs, and
the login either fails with a login failure (quirk: `LoginFailed` is
swallowed and the method still returns true) or succeeds with the version
query also succeeding; in every case where the client was constructed —
including a non-login-failure login error — the handle is left set, so
later passes proceed as if connected. -/
theorem connect_qbittorrent_characterization (cfg : QBConfig) (env : ConnEnv)
    (s : QBState) :
    ((connect_qbittorrent cfg env s).1 = true ↔
      (cfg.url ≠ none ∧ cfg.username ≠ none ∧ cfg.password ≠ none ∧
        env.clientOk = true ∧
        (env.auth = AuthOutcome.loginFailed ∨
          (env.auth = AuthOutcome.ok ∧ env.appVersionOk = true)))) ∧
    (connect_qbittorrent cfg env s).2.qb =
      (s.qb || (decide (cfg.url ≠ none) && decide (cfg.username ≠ none) &&
        decide (cfg.password ≠ none) && env.clientOk)) := by
  by_cases h1 : cfg.url = none ∨ cfg.username = none ∨ cfg.password = none
  · constructor
    · simp only [connect_qbittorrent, if_pos h1, Bool.false_eq_true, false_iff]
      rintro ⟨hu, hn, hp, -, -⟩
      rcases h1 with h | h | h
      · exact hu h
      · exact hn h
      · exact hp h
    · simp only [connect_qbittorrent, if_pos h1]
      rcases h1 with h | h | h <;> simp [h]
  · push_neg at h1
    obtain ⟨hu, hn, hp⟩ := h1
    have hne : ¬ (cfg.url = none ∨ cfg.username = none ∨ cfg.password = none) := by
      rintro (h | h | h)
      · exact hu h
      · exact hn h
      · exact hp h
    rcases hco : env.clientOk with _ | _
    · constructor <;>
        simp [connect_qbittorrent, hne, hco, hu, hn, hp]
    · rcases ha : env.auth with _ | _ | _ <;>
        rcases hav : env.appVersionOk with _ | _ <;>
          constructor <;>
            simp [connect_qbittorrent, hne, hco, ha, hav, hu, hn, hp]

/-- Splitting on the comma character, with the semantics of the source's
`s.split(',')`: the empty text yields one empty piece. -/
def splitOnComma : List Char → List (List Char)
  | [] => [[]]
  | c :: rest =>
    if c = ',' then [] :: splitOnComma rest
    else
      match splitOnComma rest with
      | [] => [[c]]
      | g :: gs => (c :: g) :: gs

/-- Whitespace stripping at both ends, the semantics of the source's
`cat.strip()`. -/
def stripChars (cs : List Char) : List Char :=
  ((cs.dropWhile Char.isWhitespace).reverse.dropWhile Char.isWhitespace).reverse

/-- One comma-separated category list as `load_config` parses it (lines
174-177): split on commas, strip surrounding whitespace, keep only entries
that strip to something non-empty. -/
def parseTagList (s : String) : List String :=
  ((splitOnComma s.data).map (fun cs => String.mk (stripChars cs))).filter
    (fun c => c ≠ "")

/-- The environment variables `load_config` reads for the `qbittorrent`
section (absent = unset, so the default applies).  The numeric variables
carry the already-parsed value of the source's `float(...)` conversion. -/
structure EnvVars where
  QB_URL : Option String
  QB_PORT : Option String
  QB_USERNAME : Option String
  QB_PASSWORD : Option String
  RATIO_LIMIT : Option ℚ
  SEEDING_TIME_LIMIT : Option ℚ
  DELETE_FILES : Option String
  EXCLUDE_TAGS : Option String
  INCLUDE_TAGS : Option String

/-- The `qbittorrent` section of `load_config` (lines 163-183): defaults
for unset variables, boolean parsing of `DELETE_FILES`, and `parseTagList`
for the two category lists. -/
def load_config (e : EnvVars) : QBConfig :=
  { url := some (e.QB_URL.getD "http://localhost"),
    port := e.QB_PORT.getD "8080",
    username := some (e.QB_USERNAME.getD "admin"),
    password := some (e.QB_PASSWORD.getD "adminadmin"),
    ratio_limit := e.RATIO_LIMIT.getD 2,
    seeding_time_limit := e.SEEDING_TIME_LIMIT.getD 120,
    delete_files := decide ((e.DELETE_FILES.getD "false").toLower = "true"),
    exclude_tags := parseTagList (e.EXCLUDE_TAGS.getD ""),
    include_tags := parseTagList (e.INCLUDE_TAGS.getD "") }

/-- Helper: the empty string never survives `parseTagList`. -/
lemma empty_not_mem_parseTagList (s : String) : "" ∉ parseTagList s := by
  intro h
  have := List.of_mem_filter h
  simp at this

/-- C10: no configuration loaded from the environment puts the empty
("untagged") category in either list, so an untagged record always passes
the exclusion gate and is always rejected whenever the include list is
non-empty. -/
theorem untagged_never_in_loaded_lists (e : EnvVars) (t : Torrent)
    (ht : t.tags = "") :
    "" ∉ (load_config e).exclude_tags ∧
    "" ∉ (load_config e).include_tags ∧
    t.tags ∉ (load_config e).exclude_tags ∧
    ((load_config e).include_tags ≠ [] →
      should_delete_torrent (load_config e) t = false) := by
  have hex : "" ∉ (load_config e).exclude_tags := empty_not_mem_parseTagList _
  have hin : "" ∉ (load_config e).include_tags := empty_not_mem_parseTagList _
  refine ⟨hex, hin, by rw [ht]; exact hex, fun hne => ?_⟩
  exact should_delete_of_not_included (load_config e) t hne (by rw [ht]; exact hin)

/-- An environment setting only the include list. -/
def envIncludeOnly : EnvVars :=
  { QB_URL := none, QB_PORT := none, QB_USERNAME := none, QB_PASSWORD := none,
    RATIO_LIMIT := none, SEEDING_TIME_LIMIT := none, DELETE_FILES := none,
    EXCLUDE_TAGS := none, INCLUDE_TAGS := some "books, ,movies" }

/-- Witness for C10: include list "books, ,movies" (note the blank entry,
which is dropped), untagged record `tA` is rejected. -/
theorem untagged_never_in_loaded_lists_witness :
    tA.tags = "" ∧
    (load_config envIncludeOnly).include_tags ≠ [] ∧
    should_delete_torrent (load_config envIncludeOnly) tA = false :=
  ⟨rfl, by decide,
    (untagged_never_in_loaded_lists envIncludeOnly tA rfl).2.2.2 (by decide)⟩
